import Mathlib

/-!
# homo: the PocketSphinx listener (`module/sphinx/sphinx.go`)

A shallow embedding of `Listener.paCallback` and `Listener.report`.

* The two functions are stateful Go code driving external collaborators (the
  decoder, the view, the speech-to-text service, the dialogue engine, the
  file system, the logger).  Every call to a collaborator is recorded, in
  program order, as an `Event`; what a collaborator answers is an input of
  the model (`Frame`).
* The process-wide variables of package `config` are the record `Config`.
* A Go `string` is its sequence of bytes (`GoString`); `[]rune(s)` and
  `string(runes)` are the UTF-8 decoder and encoder of the Go runtime.
* A callback ends by returning a status, by `logrus.Fatalln` (process exit)
  or by a run-time panic; the three are told apart by `Outcome`.
-/

namespace Homo

/-! ## Go strings and runes -/

/-- A Go string: a sequence of bytes, each a natural number below 256. -/
abbrev GoString := List Nat

/-- The Go constant `utf8.RuneError`, U+FFFD.  A rune (`int32` code point) is an `Int`. -/
def runeError : Int := 0xFFFD

/-- A continuation byte `10xxxxxx` (`locb <= b && b <= hicb` in the runtime). -/
def isCont (b : Nat) : Bool := 0x80 ≤ b && b ≤ 0xBF

/-- Runtime `encoderune`: the UTF-8 bytes of one rune.  Surrogates and values
outside `0 .. 0x10FFFF` are written as `utf8.RuneError`.  The masks and shifts
of the runtime are written with `/`, `%` and `+` on the bit fields. -/
def encodeRune (r : Int) : GoString :=
  if 0 ≤ r ∧ r ≤ 0x7F then [r.toNat]
  else if 0 ≤ r ∧ r ≤ 0x7FF then [0xC0 + r.toNat / 64, 0x80 + r.toNat % 64]
  else if r < 0 ∨ 0x10FFFF < r ∨ (0xD800 ≤ r ∧ r ≤ 0xDFFF) then [0xEF, 0xBF, 0xBD]
  else if r ≤ 0xFFFF then
    [0xE0 + r.toNat / 4096, 0x80 + r.toNat / 64 % 64, 0x80 + r.toNat % 64]
  else
    [0xF0 + r.toNat / 262144, 0x80 + r.toNat / 4096 % 64,
     0x80 + r.toNat / 64 % 64, 0x80 + r.toNat % 64]

/-- Go conversion `string(runes)` for a `[]rune`. -/
def runesToString : List Int → GoString
  | [] => []
  | r :: rs => encodeRune r ++ runesToString rs

/-- Runtime `decoderune` on a non-empty string with first byte `b0`, the
ASCII case included: the rune read and the number of bytes consumed.  An
ill-formed or truncated sequence yields `(utf8.RuneError, 1)`. -/
def decodeRune (b0 : Nat) (rest : GoString) : Int × Nat :=
  if b0 < 0x80 then ((b0 : Int), 1)
  else if 0xC0 ≤ b0 ∧ b0 < 0xE0 then
    match rest with
    | b1 :: _ =>
      let r := b0 % 32 * 64 + b1 % 64
      if isCont b1 ∧ 0x7F < r then ((r : Int), 2) else (runeError, 1)
    | _ => (runeError, 1)
  else if 0xE0 ≤ b0 ∧ b0 < 0xF0 then
    match rest with
    | b1 :: b2 :: _ =>
      let r := b0 % 16 * 4096 + b1 % 64 * 64 + b2 % 64
      if isCont b1 ∧ isCont b2 ∧ 0x7FF < r ∧ ¬ (0xD800 ≤ r ∧ r ≤ 0xDFFF) then ((r : Int), 3)
      else (runeError, 1)
    | _ => (runeError, 1)
  else if 0xF0 ≤ b0 ∧ b0 < 0xF8 then
    match rest with
    | b1 :: b2 :: b3 :: _ =>
      let r := b0 % 8 * 262144 + b1 % 64 * 4096 + b2 % 64 * 64 + b3 % 64
      if isCont b1 ∧ isCont b2 ∧ isCont b3 ∧ 0xFFFF < r ∧ r ≤ 0x10FFFF then ((r : Int), 4)
      else (runeError, 1)
    | _ => (runeError, 1)
  else (runeError, 1)

/-- Go conversion `[]rune(s)`: decode rune after rune until the bytes are
used up.  The fuel is the number of bytes, which bounds the number of runes. -/
def stringToRunesAux : Nat → GoString → List Int
  | 0, _ => []
  | _, [] => []
  | n + 1, b0 :: rest =>
    let p := decodeRune b0 rest
    p.1 :: stringToRunesAux n (rest.drop (p.2 - 1))

/-- Go conversion `[]rune(s)`. -/
def stringToRunes (s : GoString) : List Int := stringToRunesAux s.length s

/-- The bytes of a string literal of the source file (UTF-8, as Go source is). -/
def str (s : String) : GoString := runesToString (s.toList.map fun c => (c.toNat : Int))

/-- A Unicode scalar value: what a well-formed UTF-8 sequence encodes. -/
def validRune (r : Int) : Bool :=
  decide (0 ≤ r) && decide (r ≤ 0x10FFFF) && !(decide (0xD800 ≤ r) && decide (r ≤ 0xDFFF))

/-! ## `unicode.Is` and the `unicode.Han` range table -/

/-- One entry of a Go `unicode.RangeTable`: `Lo`, `Hi`, `Stride`. -/
structure Range where
  Lo : Nat
  Hi : Nat
  Stride : Nat
deriving DecidableEq, Repr

/-- Go `unicode.Is(rangeTab, r)`: `r` lies in one of the ranges, on its stride.
The 16-bit and the 32-bit ranges of the table are held in one list. -/
def unicodeIs (rangeTab : List Range) (r : Int) : Bool :=
  rangeTab.any fun e =>
    decide ((e.Lo : Int) ≤ r) && decide (r ≤ (e.Hi : Int)) &&
      (e.Stride == 1 || (r.toNat - e.Lo) % e.Stride == 0)

/-- The table `unicode.Han` of the Go standard library (Unicode 10.0.0, the
release current when the repository was written).  The library is not part of
the repository: the functions below take the table as the field `Han` of
`Deps`, and this value is used in the worked examples only. -/
def Han : List Range :=
  [⟨0x2E80, 0x2E99, 1⟩, ⟨0x2E9B, 0x2EF3, 1⟩, ⟨0x2F00, 0x2FD5, 1⟩, ⟨0x3005, 0x3007, 2⟩,
   ⟨0x3021, 0x3029, 1⟩, ⟨0x3038, 0x303B, 1⟩, ⟨0x3400, 0x4DB5, 1⟩, ⟨0x4E00, 0x9FEA, 1⟩,
   ⟨0xF900, 0xFA6D, 1⟩, ⟨0xFA70, 0xFAD9, 1⟩, ⟨0x20000, 0x2A6D6, 1⟩, ⟨0x2A700, 0x2B734, 1⟩,
   ⟨0x2B740, 0x2B81D, 1⟩, ⟨0x2B820, 0x2CEA1, 1⟩, ⟨0x2CEB0, 0x2EBE0, 1⟩, ⟨0x2F800, 0x2FA1D, 1⟩]

/-! ## Data model -/

/-- A Go `error` value, known by its message (`err.Error()`). -/
structure GoError where
  msg : GoString
deriving DecidableEq, Repr

/-- What the functions use and the repository's `src/` does not hold:
`baidu.IsErrSpeechQuality` (package `module/baidu`) and the table
`unicode.Han`. -/
structure Deps where
  IsErrSpeechQuality : GoError → Bool
  Han : List Range

/-- The constants of the source file. -/
def samplesPerChannel : Nat := 512

/-- Sample rate, in Hz. -/
def sampleRate : Nat := 16000

/-- Number of input channels. -/
def channels : Nat := 1

/-- The struct `Listener`, without the decoder handle (the decoder is a
collaborator: its calls are events, its answers come with the `Frame`). -/
structure Listener where
  inSpeech : Bool
  uttStarted : Bool
deriving DecidableEq, Repr

/-- The process-wide variables of package `config` read by the listener. -/
structure Config where
  WakeUpd : Bool
  IsPlayingVoice : Bool
  InterruptMode : Bool
  SilenceMode : Bool
  OfflineMode : Bool
  RawToWav : Bool
  RecordThreshold : Int
  InputRaw : GoString
  InputWav : GoString
deriving DecidableEq, Repr

/-- The log lines of the two functions: one constructor per call site, with
the arguments of its format string. -/
inductive LogMsg where
  /-- Line `Info("发现音频波动，开始录制音频...")` -/
  | onsetRecord
  /-- Line `Info("发现音频波动，开始检测唤醒词...")` -/
  | onsetWake
  /-- Line `Fatalln("Sphinx failed to start utterance")` -/
  | startUttFailed
  /-- Line `Infof("音频长度小于阈值 %d，取消录制", config.RecordThreshold)` -/
  | belowThreshold (threshold : Int)
  /-- Line `Infof("保存原始音频文件到: %s, 音频流长度: %d Byte\n", config.InputRaw, len)` -/
  | savingRaw (path : GoString) (len : Nat)
  /-- Line `Warnf("binary.Write failed: %s", err.Error())` after `ioutil.WriteFile` -/
  | writeFileFailed (err : GoString)
  /-- Line `Warnf("%s", errorMsg)` -/
  | recognitionError (errorMsg : GoString)
  /-- Line `Warnf("连接到nlu出错: %s", err.Error())` -/
  | nluFailed (err : GoString)
  /-- Line `Warnf("Convert raw input %s to wav failed: %s", config.InputRaw, err.Error())` -/
  | wavFailed (path : GoString) (err : GoString)
  /-- Line `Infof("原始音频文件编码为wav，保存到: %s", config.InputWav)` -/
  | wavSaved (path : GoString)
  /-- Line `Info("命中唤醒词，开始唤醒...")` -/
  | wakeHit
  /-- Line `Println("没有检测到唤醒词")` -/
  | noWakeWord
deriving DecidableEq, Repr

/-- The calls the two functions make to their collaborators. -/
inductive Event where
  /-- Call `l.dec.ProcessRaw(in, true, false)` -/
  | decProcessRaw
  /-- Call `l.dec.IsInSpeech()` -/
  | decIsInSpeech
  /-- Call `l.dec.EndUtt()` -/
  | decEndUtt
  /-- Call `l.dec.StartUtt()` -/
  | decStartUtt
  /-- Call `l.dec.RawData()` -/
  | decRawData
  /-- Call `l.dec.Hypothesis()` -/
  | decHypothesis
  /-- Entry of `l.report()` -/
  | reportCalled
  /-- A `logrus` call -/
  | log (m : LogMsg)
  /-- Call `view.TypingAnimate()` -/
  | viewTypingAnimate
  /-- Call `view.TypingAnimateStop()` -/
  | viewTypingAnimateStop
  /-- Call `view.SendReply(reply)` -/
  | viewSendReply (reply : List GoString)
  /-- Call `view.SendReplyWithVoice(reply)` -/
  | viewSendReplyWithVoice (reply : List GoString)
  /-- Call `view.SendOnlyInputText(message)` -/
  | viewSendOnlyInputText (message : GoString)
  /-- Call `view.SendInputText(message)` -/
  | viewSendInputText (message : GoString)
  /-- Call `ioutil.WriteFile(path, data, 0644)` -/
  | writeFile (path : GoString) (data : GoString)
  /-- Call `baidu.SpeechToText(path, "pcm", rate)` -/
  | speechToText (path : GoString) (rate : Nat)
  /-- Call `nlu.ActionLocal(message)` -/
  | nluActionLocal (message : GoString)
  /-- Call `Pcm2Wav(path)` -/
  | pcm2Wav (path : GoString)
  /-- Call `config.WakeUpWait.Done()` -/
  | wakeUpWaitDone
deriving DecidableEq, Repr

/-- What the collaborators answer during one invocation of the callback. -/
structure Frame where
  /-- Value of `config.IsPlayingVoice` when the callback starts; the variable is
  set and cleared by the playback side, outside the listener -/
  isPlayingVoice : Bool
  /-- The argument `sampleCount` -/
  sampleCount : Nat
  /-- Second result of `dec.ProcessRaw` -/
  processRawOk : Bool
  /-- Result of `dec.IsInSpeech()` -/
  isInSpeech : Bool
  /-- Result of `dec.StartUtt()` -/
  startUttOk : Bool
  /-- Result of `dec.RawData()`, a `[]int16` -/
  rawData : List Int
  /-- First result of `dec.Hypothesis()` -/
  hypothesis : GoString
  /-- Result of `ioutil.WriteFile` (`none` is the nil error) -/
  writeFileErr : Option GoError
  /-- Results of `baidu.SpeechToText` -/
  speechToText : List GoString × Option GoError
  /-- Results of `nlu.ActionLocal`, for each message -/
  actionLocal : GoString → List GoString × Option GoError
  /-- Result of `Pcm2Wav` -/
  pcm2WavErr : Option GoError

/-- The value `portaudio.PaContinue` or `portaudio.PaAbort` returned to the driver. -/
inductive Status where
  | statusContinue
  | statusAbort
deriving DecidableEq, Repr

/-- How an invocation ends. -/
inductive Outcome where
  /-- The function returned this status -/
  | returned (s : Status)
  /-- Call of `logrus.Fatalln`: the process exits -/
  | fatal
  /-- A run-time panic (index or slice bound out of range) -/
  | panicked
deriving DecidableEq, Repr

/-- Result of `report`: the configuration it leaves, the calls it made, and
whether it returned (`true`) or panicked (`false`). -/
structure ReportResult where
  cfg : Config
  trace : List Event
  returned : Bool
deriving DecidableEq, Repr

/-- Result of `paCallback`. -/
structure CallbackResult where
  l : Listener
  cfg : Config
  trace : List Event
  out : Outcome
deriving DecidableEq, Repr

/-! ## `Listener.report` -/

/-- The two bytes `binary.Write(buf, binary.LittleEndian, v)` appends for an
`int16` value `v` (two's complement, low byte first). -/
def int16Bytes (v : Int) : GoString := [(v % 256).toNat, (v / 256 % 256).toNat]

/-- The loop `for _, v := range rData { binary.Write(buf, binary.LittleEndian, v) }`
over a fresh buffer: the contents of `buf.Bytes()` afterwards.  Writing a
fixed-size value to a `bytes.Buffer` returns no error, so the branch logging
one is never taken. -/
def serialize (rData : List Int) : GoString :=
  rData.foldl (fun buf v => buf ++ int16Bytes v) []

/-- Go indexing `s[i]` of a rune slice: `none` is the out-of-range panic. -/
def runeAt (s : List Int) (i : Int) : Option Int :=
  if 0 ≤ i ∧ i < (s.length : Int) then s[i.toNat]? else none

/-- Lines 238-245: the optional conversion of the persisted capture to wav. -/
def rawToWav (cfg : Config) (f : Frame) : List Event :=
  if cfg.RawToWav then
    match f.pcm2WavErr with
    | some err => [.pcm2Wav cfg.InputRaw, .log (.wavFailed cfg.InputRaw err.msg)]
    | none => [.pcm2Wav cfg.InputRaw, .log (.wavSaved cfg.InputWav)]
  else []

/-- Lines 197-209: the branch `!success`, with the error message built from
the recognition error. -/
def reportFailure (cfg : Config) (errorMsg : GoString) : List Event :=
  if cfg.SilenceMode then [.log (.recognitionError errorMsg)]
  else [.viewSendReply [errorMsg]]

/-- Lines 219-235: what is done with the cleaned `message`.  The variable
`config.SilenceMode` is read twice; it is set when the process starts, and
both reads see the same value. -/
def dispatch (cfg : Config) (f : Frame) (message : GoString) : List Event :=
  if cfg.SilenceMode then
    let (replyMessage, err) := f.actionLocal message
    [.nluActionLocal message] ++
    (match err with
     | some e => [.log (.nluFailed e.msg)]
     | none => []) ++
    (if !cfg.SilenceMode then
       [.viewSendOnlyInputText message,
        if cfg.OfflineMode then .viewSendReply replyMessage
        else .viewSendReplyWithVoice replyMessage]
     else [])
  else [.viewSendInputText message]

/-- Lines 211-218: the message computed from the first candidate; `none` is
the panic of `s[len(s)-1]` on an empty rune slice. -/
def cleanMessage (d : Deps) (candidate : GoString) : Option GoString :=
  let s := stringToRunes candidate
  match runeAt s ((s.length : Int) - 1) with
  | none => none
  | some last =>
    if !unicodeIs d.Han last then some (runesToString (s.take ((s.length : Int) - 1).toNat))
    else some []

/-- The method `Listener.report` (lines 138-258): the configuration it leaves,
the calls it makes in program order, and whether it returns.  The local `t0`
holds the events up to `RawData()`, `t1` those up to the recognition call. -/
def report (d : Deps) (cfg : Config) (f : Frame) : ReportResult :=
  if cfg.WakeUpd then
    let t0 : List Event :=
      (if !cfg.SilenceMode then [.reportCalled, .viewTypingAnimate] else [.reportCalled]) ++
        [.decRawData]
    let buf := serialize f.rawData
    if (buf.length : Int) < cfg.RecordThreshold then
      ⟨cfg, t0 ++ [.log (.belowThreshold cfg.RecordThreshold), .viewTypingAnimateStop], true⟩
    else
      let t1 : List Event :=
        t0 ++ [.log (.savingRaw cfg.InputRaw buf.length), .writeFile cfg.InputRaw buf] ++
          (match f.writeFileErr with
           | some err => [.log (.writeFileFailed err.msg)]
           | none => []) ++
          [.speechToText cfg.InputRaw sampleRate]
      match f.speechToText with
      | (_, some err) =>
        if d.IsErrSpeechQuality err then ⟨cfg, t1 ++ [.viewTypingAnimateStop], true⟩
        else
          ⟨cfg, t1 ++ reportFailure cfg (str "语音在线识别出错：" ++ err.msg) ++ rawToWav cfg f, true⟩
      | ([], none) => ⟨cfg, t1 ++ [.viewTypingAnimateStop], true⟩
      | (candidate :: _, none) =>
        match cleanMessage d candidate with
        | none => ⟨cfg, t1, false⟩
        | some message => ⟨cfg, t1 ++ dispatch cfg f message ++ rawToWav cfg f, true⟩
  else
    if f.hypothesis.length > 0 then
      if f.hypothesis = str "homo" ∨ f.hypothesis = str "como" then
        ⟨{ cfg with WakeUpd := true },
          [.reportCalled, .decHypothesis, .log .wakeHit, .wakeUpWaitDone], true⟩
      else ⟨cfg, [.reportCalled, .decHypothesis], true⟩
    else ⟨cfg, [.reportCalled, .decHypothesis, .log .noWakeWord], true⟩

/-! ## `Listener.paCallback` -/

/-- The method `Listener.paCallback` (lines 95-136).  The slice expression
`(*(*[1 << 24]int16)(input))[:int(sampleCount)*channels]` panics when its bound
exceeds the array length. -/
def paCallback (d : Deps) (cfg : Config) (l : Listener) (f : Frame) : CallbackResult :=
  if cfg.IsPlayingVoice && !cfg.InterruptMode then ⟨l, cfg, [], .returned .statusContinue⟩
  else if ¬ f.sampleCount * channels ≤ 2 ^ 24 then ⟨l, cfg, [], .panicked⟩
  else if !f.processRawOk then ⟨l, cfg, [.decProcessRaw], .returned .statusAbort⟩
  else if f.isInSpeech then
    if !l.uttStarted then
      ⟨{ inSpeech := true, uttStarted := true }, cfg,
        [.decProcessRaw, .decIsInSpeech,
         .log (if cfg.WakeUpd then .onsetRecord else .onsetWake)],
        .returned .statusContinue⟩
    else
      ⟨{ l with inSpeech := true }, cfg, [.decProcessRaw, .decIsInSpeech],
        .returned .statusContinue⟩
  else if l.uttStarted then
    let r := report d cfg f
    let l1 : Listener := { l with uttStarted := false }
    let t : List Event := [.decProcessRaw, .decIsInSpeech, .decEndUtt] ++ r.trace
    if !r.returned then ⟨l1, r.cfg, t, .panicked⟩
    else if !f.startUttOk then
      ⟨l1, r.cfg, t ++ [.decStartUtt, .log .startUttFailed], .fatal⟩
    else ⟨l1, r.cfg, t ++ [.decStartUtt], .returned .statusContinue⟩
  else ⟨l, cfg, [.decProcessRaw, .decIsInSpeech], .returned .statusContinue⟩

/-! ## Executions: the driver calling the callback frame after frame -/

/-- The listener and the configuration variables between two callbacks. -/
structure World where
  l : Listener
  cfg : Config
deriving DecidableEq, Repr

/-- One invocation of the callback by the audio driver, `config.IsPlayingVoice`
having the value the playback side gave it. -/
def step (d : Deps) (w : World) (f : Frame) : CallbackResult :=
  paCallback d { w.cfg with IsPlayingVoice := f.isPlayingVoice } w.l f

/-- An execution: the world it ends in, the events of each invocation made,
and how it stopped (`none`: every frame was handled and the stream goes on). -/
structure Run where
  final : World
  traces : List (List Event)
  stop : Option Outcome
deriving DecidableEq, Repr

/-- The driver serialises the callbacks and calls again only after
`statusContinue`: an abort stops the stream, `logrus.Fatalln` and a panic end
the process. -/
def runFrames (d : Deps) : World → List Frame → Run
  | w, [] => ⟨w, [], none⟩
  | w, f :: fs =>
    let r := step d w f
    match r.out with
    | .returned .statusContinue =>
      let rest := runFrames d ⟨r.l, r.cfg⟩ fs
      ⟨rest.final, r.trace :: rest.traces, rest.stop⟩
    | o => ⟨⟨r.l, r.cfg⟩, [r.trace], some o⟩

/-- The admission of a frame by the callback: the playback gate is not active,
the slice of `sampleCount` samples is within the array, `ProcessRaw` succeeds. -/
def Frame.processed (interruptMode : Bool) (f : Frame) : Bool :=
  (interruptMode || !f.isPlayingVoice) && decide (f.sampleCount * channels ≤ 2 ^ 24) &&
    f.processRawOk

/-- The initial `Listener` of `LoadCMUSphinx`: `&Listener{dec: dec}`. -/
def Listener.initial : Listener := ⟨false, false⟩

/-! ## Observations on traces -/

/-- A call to package `view`. -/
def Event.isViewCall : Event → Bool
  | .viewTypingAnimate | .viewTypingAnimateStop | .viewSendReply _
  | .viewSendReplyWithVoice _ | .viewSendOnlyInputText _ | .viewSendInputText _ => true
  | _ => false

/-- A reply or an input text sent to the view. -/
def Event.isViewText : Event → Bool
  | .viewSendReply _ | .viewSendReplyWithVoice _
  | .viewSendOnlyInputText _ | .viewSendInputText _ => true
  | _ => false

/-- A call to the speech-to-text service. -/
def Event.isSpeechToText : Event → Bool
  | .speechToText _ _ => true
  | _ => false

/-- A call to the dialogue engine. -/
def Event.isDialogue : Event → Bool
  | .nluActionLocal _ => true
  | _ => false

/-- The log line of a recognition error. -/
def Event.isRecognitionErrorLog : Event → Bool
  | .log (.recognitionError _) => true
  | _ => false

/-- The raw-to-wav conversion. -/
def Event.isPcm2Wav : Event → Bool
  | .pcm2Wav _ => true
  | _ => false

/-- The speech-onset log line, written when `uttStarted` goes from false to true. -/
def Event.isOnset : Event → Bool
  | .log .onsetRecord | .log .onsetWake => true
  | _ => false

/-- Neither a speech onset nor an utterance close. -/
def Event.isNeutral : Event → Bool
  | .decEndUtt | .log .onsetRecord | .log .onsetWake => false
  | _ => true

/-- The events of a trace that follow its first recognition call. -/
def afterRecognition (t : List Event) : List Event :=
  (t.dropWhile fun e => !e.isSpeechToText).drop 1

/-- The texts handed downstream: to the dialogue engine or to the view as input text. -/
def forwardedTexts : List Event → List GoString
  | [] => []
  | .nluActionLocal m :: es => m :: forwardedTexts es
  | .viewSendInputText m :: es => m :: forwardedTexts es
  | .viewSendOnlyInputText m :: es => m :: forwardedTexts es
  | _ :: es => forwardedTexts es

/-- Number of utterance-close events: `EndUtt` directly followed by the entry of `report`. -/
def closeCount : List Event → Nat
  | [] => 0
  | e :: es =>
    (if e = .decEndUtt ∧ es.head? = some .reportCalled then 1 else 0) + closeCount es

/-- Per frame of a classification (true = speech), whether the frame is the
first silence frame after a run of speech frames; `prev` is the class of the
frame before. -/
def closePositions : Bool → List Bool → List Bool
  | _, [] => []
  | prev, c :: cs => (prev && !c) :: closePositions c cs

/-- The maximal runs of frames of one class in a classification, in order,
each with its class and its length. -/
def runs : List Bool → List (Bool × Nat)
  | [] => []
  | c :: cs =>
    match runs cs with
    | [] => [(c, 1)]
    | (c', n) :: rest => if c = c' then (c, n + 1) :: rest else (c, 1) :: (c', n) :: rest

/-- Number of maximal runs of speech frames that a silence frame follows:
the speech runs other than the last run of the classification. -/
def closedSpeechRuns (cls : List Bool) : Nat :=
  ((runs cls).dropLast.filter fun r => r.1).length

/-- Onsets and closes alternate in a trace: no close unless an utterance is
open, no onset while one is; `isOpen` tells whether one is open at the start. -/
def alternates : Bool → List Event → Bool
  | _, [] => true
  | isOpen, e :: es =>
    if e.isOnset then !isOpen && alternates true es
    else if e = .decEndUtt then isOpen && alternates false es
    else alternates isOpen es

/-- Case-insensitive comparison, as the specification words the trigger
match: equality after mapping the ASCII capitals to small letters. -/
def equalFold (s t : GoString) : Bool :=
  s.map (fun b => if 65 ≤ b ∧ b ≤ 90 then b + 32 else b) ==
    t.map (fun b => if 65 ≤ b ∧ b ≤ 90 then b + 32 else b)

/-- The states of the specification: `Idle`. -/
def Listener.isIdle (l : Listener) : Bool := !l.inSpeech && !l.uttStarted

/-- The states of the specification: `Capturing`. -/
def Listener.isCapturing (l : Listener) : Bool := l.inSpeech && l.uttStarted

/-! ## Worked inputs -/

/-- Dependencies of the worked examples: an error is a quality error when its
message is `quality`, the table is `Han`. -/
def exDeps : Deps := ⟨fun e => e.msg == str "quality", Han⟩

/-- Wake-word mode, every flag off, no threshold. -/
def exWakeCfg : Config :=
  { WakeUpd := false, IsPlayingVoice := false, InterruptMode := false, SilenceMode := false,
    OfflineMode := false, RawToWav := false, RecordThreshold := 0,
    InputRaw := str "input.raw", InputWav := str "input.wav" }

/-- Capture mode with the threshold of the scenario, 100000 bytes. -/
def exCaptureCfg : Config := { exWakeCfg with WakeUpd := true, RecordThreshold := 100000 }

/-- Capture mode in silence mode, online, with a threshold of four bytes. -/
def exSilentCfg : Config :=
  { exWakeCfg with WakeUpd := true, SilenceMode := true, RecordThreshold := 4 }

/-- A frame of 512 samples the decoder accepts and classifies as `speech`;
the decoder holds no hypothesis and no captured samples, the services answer
with empty results and no error. -/
def exFrame (speech : Bool) : Frame :=
  { isPlayingVoice := false, sampleCount := 512, processRawOk := true, isInSpeech := speech,
    startUttOk := true, rawData := [], hypothesis := [], writeFileErr := none,
    speechToText := ([], none), actionLocal := fun _ => ([], none), pcm2WavErr := none }

/-- A silence frame closing an utterance of which the decoder's hypothesis is `hyp`. -/
def exHypFrame (hyp : GoString) : Frame := { exFrame false with hypothesis := hyp }

/-- A silence frame closing an utterance of three captured samples the service
recognises as `candidates`; the dialogue engine answers `ok`. -/
def exRecognisedFrame (candidates : List GoString) : Frame :=
  { exFrame false with
    rawData := [12, -3, 7],
    speechToText := (candidates, none), actionLocal := fun _ => ([str "ok"], none) }

/-- Six frames: speech, speech, silence, silence, speech, silence. -/
def exFrames : List Frame :=
  [exFrame true, exFrame true, exFrame false, exFrame false, exFrame true, exFrame false]

/-- A silence frame closing an utterance of 25000 captured samples. -/
def exShortFrame : Frame := { exFrame false with rawData := List.replicate 25000 0 }

/-! ## Lemmas -/

theorem serialize_length_aux (rData : List Int) (buf : GoString) :
    (rData.foldl (fun buf v => buf ++ int16Bytes v) buf).length
      = buf.length + 2 * rData.length := by
  induction rData generalizing buf with
  | nil => simp
  | cons v vs ih =>
    simp only [List.foldl_cons, List.length_cons]
    rw [ih]
    simp [int16Bytes]
    omega

theorem serialize_length (rData : List Int) :
    (serialize rData).length = 2 * rData.length := by
  simp [serialize, serialize_length_aux]

theorem equalFold_self (s : GoString) : equalFold s s = true := by
  simp [equalFold]

theorem ne_of_equalFold_false {s t : GoString} (h : equalFold s t = false) : s ≠ t := by
  intro hst
  rw [hst, equalFold_self] at h
  exact Bool.noConfusion h

theorem stringToRunes_ne_nil {c : GoString} (hc : c ≠ []) : stringToRunes c ≠ [] := by
  cases c with
  | nil => exact absurd rfl hc
  | cons b rest => simp [stringToRunes, stringToRunesAux]

theorem runeAt_last (s : List Int) (hs : s ≠ []) :
    runeAt s ((s.length : Int) - 1) = some (s.getLast hs) := by
  have hpos : 0 < s.length := List.length_pos.mpr hs
  have h1 : (0 : Int) ≤ (s.length : Int) - 1 ∧ (s.length : Int) - 1 < (s.length : Int) := by
    omega
  have h2 : ((s.length : Int) - 1).toNat = s.length - 1 := by omega
  simp only [runeAt, h1, and_self, if_true, h2]
  rw [List.getLast_eq_getElem]
  exact List.getElem?_eq_getElem _

theorem take_length_pred (s : List Int) :
    s.take ((s.length : Int) - 1).toNat = s.dropLast := by
  have h2 : ((s.length : Int) - 1).toNat = s.length - 1 := by omega
  rw [h2, List.dropLast_eq_take]

theorem cleanMessage_eq (d : Deps) (c : GoString) (hc : c ≠ []) :
    cleanMessage d c =
      some (if unicodeIs d.Han ((stringToRunes c).getLast (stringToRunes_ne_nil hc)) = true
        then [] else runesToString (stringToRunes c).dropLast) := by
  simp only [cleanMessage, runeAt_last _ (stringToRunes_ne_nil hc), take_length_pred]
  split <;> simp_all

/-- The events of the capture branch up to and including the recognition call. -/
theorem report_capture_start (d : Deps) (cfg : Config) (f : Frame) (hw : cfg.WakeUpd = true) :
    ∃ rest, (report d cfg f).trace =
      (if !cfg.SilenceMode then [.reportCalled, .viewTypingAnimate] else [.reportCalled]) ++
        .decRawData :: rest := by
  unfold report
  simp only [hw, if_true]
  split
  · exact ⟨_, by simp only [List.append_assoc, List.cons_append, List.nil_append]; rfl⟩
  · split
    · split <;>
      · exact ⟨_, by simp only [List.append_assoc, List.cons_append, List.nil_append]; rfl⟩
    · exact ⟨_, by simp only [List.append_assoc, List.cons_append, List.nil_append]; rfl⟩
    · split <;>
      · exact ⟨_, by simp only [List.append_assoc, List.cons_append, List.nil_append]; rfl⟩

theorem decodeRune_encodeRune (n : Nat) (hn : n ≤ 0x10FFFF)
    (hs : ¬ (0xD800 ≤ n ∧ n ≤ 0xDFFF)) (rest : GoString) :
    ∃ b0 bs, encodeRune (n : Int) = b0 :: bs ∧
      decodeRune b0 (bs ++ rest) = ((n : Int), bs.length + 1) := by
  by_cases h1 : n ≤ 0x7F
  · refine ⟨n, [], ?_, ?_⟩
    · have : (n : Int) ≤ 0x7F := by exact_mod_cast h1
      simp [encodeRune, this]
    · have : n < 0x80 := by omega
      simp [decodeRune, this]
  · by_cases h2 : n ≤ 0x7FF
    · refine ⟨0xC0 + n / 64, [0x80 + n % 64], ?_, ?_⟩
      · have a1 : ¬ (n : Int) ≤ 0x7F := by omega
        have a2 : (n : Int) ≤ 0x7FF := by omega
        simp [encodeRune, a1, a2]
      · have b1 : ¬ (0xC0 + n / 64 < 0x80) := by omega
        have b2 : 0xC0 ≤ 0xC0 + n / 64 ∧ 0xC0 + n / 64 < 0xE0 := by omega
        have b3 : isCont (0x80 + n % 64) = true := by simp [isCont]; omega
        have b4 : (0xC0 + n / 64) % 32 * 64 + (0x80 + n % 64) % 64 = n := by omega
        have b5 : 0x7F < n := by omega
        simp only [decodeRune, b1, b2, if_false, if_true, and_self, List.cons_append,
          List.nil_append, b3, b4, b5, List.length_singleton]
    · by_cases h3 : n ≤ 0xFFFF
      · refine ⟨0xE0 + n / 4096, [0x80 + n / 64 % 64, 0x80 + n % 64], ?_, ?_⟩
        · have b1 : ¬ (0 ≤ (n : Int) ∧ (n : Int) ≤ 0x7F) := by omega
          have b2 : ¬ (0 ≤ (n : Int) ∧ (n : Int) ≤ 0x7FF) := by omega
          have a1 : ¬ (n : Int) ≤ 0x7F := by omega
          have a2 : ¬ (n : Int) ≤ 0x7FF := by omega
          have a3 : ¬ ((n : Int) < 0 ∨ 0x10FFFF < (n : Int) ∨
              (0xD800 ≤ (n : Int) ∧ (n : Int) ≤ 0xDFFF)) := by omega
          have a4 : (n : Int) ≤ 0xFFFF := by omega
          simp only [encodeRune, a3, a4, b1, b2, if_false, if_true, Int.toNat_ofNat]
        · have b1 : ¬ (0xE0 + n / 4096 < 0x80) := by omega
          have b2 : ¬ (0xC0 ≤ 0xE0 + n / 4096 ∧ 0xE0 + n / 4096 < 0xE0) := by omega
          have b2' : 0xE0 ≤ 0xE0 + n / 4096 ∧ 0xE0 + n / 4096 < 0xF0 := by omega
          have b3 : isCont (0x80 + n / 64 % 64) = true := by simp [isCont]; omega
          have b3' : isCont (0x80 + n % 64) = true := by simp [isCont]; omega
          have b4 : (0xE0 + n / 4096) % 16 * 4096 + (0x80 + n / 64 % 64) % 64 * 64
              + (0x80 + n % 64) % 64 = n := by omega
          have b5 : 0x7FF < n := by omega
          simp only [decodeRune, b1, b2, b2', if_false, if_true, and_self, List.cons_append,
            List.nil_append, b3, b3', b4, b5, hs, not_false_eq_true, List.length_cons,
            List.length_singleton, List.length_nil]
      · refine ⟨0xF0 + n / 262144,
          [0x80 + n / 4096 % 64, 0x80 + n / 64 % 64, 0x80 + n % 64], ?_, ?_⟩
        · have b1 : ¬ (0 ≤ (n : Int) ∧ (n : Int) ≤ 0x7F) := by omega
          have b2 : ¬ (0 ≤ (n : Int) ∧ (n : Int) ≤ 0x7FF) := by omega
          have a1 : ¬ (n : Int) ≤ 0x7F := by omega
          have a2 : ¬ (n : Int) ≤ 0x7FF := by omega
          have a3 : ¬ ((n : Int) < 0 ∨ 0x10FFFF < (n : Int) ∨
              (0xD800 ≤ (n : Int) ∧ (n : Int) ≤ 0xDFFF)) := by omega
          have a4 : ¬ (n : Int) ≤ 0xFFFF := by omega
          simp only [encodeRune, a3, a4, b1, b2, if_false, if_true, Int.toNat_ofNat]
        · have b1 : ¬ (0xF0 + n / 262144 < 0x80) := by omega
          have b2 : ¬ (0xC0 ≤ 0xF0 + n / 262144 ∧ 0xF0 + n / 262144 < 0xE0) := by omega
          have b2' : ¬ (0xE0 ≤ 0xF0 + n / 262144 ∧ 0xF0 + n / 262144 < 0xF0) := by omega
          have b2'' : 0xF0 ≤ 0xF0 + n / 262144 ∧ 0xF0 + n / 262144 < 0xF8 := by omega
          have b3 : isCont (0x80 + n / 4096 % 64) = true := by simp [isCont]; omega
          have b3' : isCont (0x80 + n / 64 % 64) = true := by simp [isCont]; omega
          have b3'' : isCont (0x80 + n % 64) = true := by simp [isCont]; omega
          have b4 : (0xF0 + n / 262144) % 8 * 262144 + (0x80 + n / 4096 % 64) % 64 * 4096
              + (0x80 + n / 64 % 64) % 64 * 64 + (0x80 + n % 64) % 64 = n := by omega
          have b5 : 0xFFFF < n := by omega
          simp only [decodeRune, b1, b2, b2', b2'', if_false, if_true, and_self,
            List.cons_append, List.nil_append, b3, b3', b3'', b4, b5, hn, List.length_cons,
            List.length_singleton, List.length_nil]

theorem stringToRunesAux_fuel (n m : Nat) (s : GoString) (hn : s.length ≤ n)
    (hm : s.length ≤ m) : stringToRunesAux n s = stringToRunesAux m s := by
  induction n generalizing m s with
  | zero =>
    have : s = [] := List.length_eq_zero.mp (by omega)
    subst this
    cases m <;> rfl
  | succ n ih =>
    cases s with
    | nil => cases m <;> rfl
    | cons b0 rest =>
      cases m with
      | zero => simp at hm
      | succ m =>
        simp only [stringToRunesAux, List.length_cons] at hn hm ⊢
        have hl : (rest.drop ((decodeRune b0 rest).2 - 1)).length ≤ rest.length := by
          simp [List.length_drop]
        rw [ih m _ (by omega) (by omega)]

theorem stringToRunes_encode_append (r : Int) (hr : validRune r = true) (t : GoString) :
    stringToRunes (encodeRune r ++ t) = r :: stringToRunes t := by
  simp only [validRune, Bool.and_eq_true, decide_eq_true_eq, Bool.not_eq_true',
    Bool.and_eq_false_iff, decide_eq_false_iff_not] at hr
  obtain ⟨⟨h0, h1⟩, h2⟩ := hr
  obtain ⟨n, rfl⟩ := Int.eq_ofNat_of_zero_le h0
  obtain ⟨b0, bs, he, hd⟩ := decodeRune_encodeRune n (by omega) (by omega) t
  rw [he]
  have hstep : stringToRunes ((b0 :: bs) ++ t) =
      (decodeRune b0 (bs ++ t)).1 ::
        stringToRunesAux (bs ++ t).length
          ((bs ++ t).drop ((decodeRune b0 (bs ++ t)).2 - 1)) := rfl
  rw [hstep, hd]
  simp only [Nat.add_sub_cancel, List.drop_left]
  refine congrArg _ (stringToRunesAux_fuel _ _ t ?_ (le_refl _))
  simp only [List.length_append]
  omega

theorem stringToRunes_runesToString (rs : List Int) (h : ∀ r ∈ rs, validRune r = true) :
    stringToRunes (runesToString rs) = rs := by
  induction rs with
  | nil => rfl
  | cons r rs ih =>
    simp only [runesToString]
    rw [stringToRunes_encode_append r (h r (List.mem_cons_self _ _)),
      ih (fun x hx => h x (List.mem_cons_of_mem _ hx))]

theorem decodeRune_valid (b0 : Nat) (rest : GoString) :
    validRune (decodeRune b0 rest).1 = true := by
  have herr : validRune runeError = true := by decide
  unfold decodeRune
  split_ifs with h1 h2 h3 h4
  · simp [validRune]; omega
  · split
    · dsimp only
      split_ifs with h
      · simp [validRune]; omega
      · exact herr
    · exact herr
  · split
    · dsimp only
      split_ifs with h
      · simp [validRune]; omega
      · exact herr
    · exact herr
  · split
    · dsimp only
      split_ifs with h
      · simp [validRune]; omega
      · exact herr
    · exact herr
  · exact herr

theorem stringToRunesAux_valid (n : Nat) (s : GoString) :
    ∀ r ∈ stringToRunesAux n s, validRune r = true := by
  induction n generalizing s with
  | zero => intro r hr; simp [stringToRunesAux] at hr
  | succ n ih =>
    cases s with
    | nil => intro r hr; simp [stringToRunesAux] at hr
    | cons b0 rest =>
      intro r hr
      simp only [stringToRunesAux, List.mem_cons] at hr
      rcases hr with hr | hr
      · rw [hr]; exact decodeRune_valid b0 rest
      · exact ih _ r hr

theorem runesToString_append (xs ys : List Int) :
    runesToString (xs ++ ys) = runesToString xs ++ runesToString ys := by
  induction xs with
  | nil => rfl
  | cons x xs ih => simp [runesToString, ih]

theorem forwardedTexts_append (xs ys : List Event) :
    forwardedTexts (xs ++ ys) = forwardedTexts xs ++ forwardedTexts ys := by
  induction xs with
  | nil => rfl
  | cons e es ih => cases e <;> simp [forwardedTexts, ih]

theorem forwardedTexts_dispatch (cfg : Config) (f : Frame) (m : GoString) :
    forwardedTexts (dispatch cfg f m) = [m] := by
  unfold dispatch
  cases hs : cfg.SilenceMode
  · simp [forwardedTexts]
  · cases he : (f.actionLocal m).2 <;> simp [forwardedTexts, he]

theorem forwardedTexts_rawToWav (cfg : Config) (f : Frame) :
    forwardedTexts (rawToWav cfg f) = [] := by
  unfold rawToWav
  cases cfg.RawToWav <;> cases f.pcm2WavErr <;> simp [forwardedTexts]

theorem report_trace_head (d : Deps) (cfg : Config) (f : Frame) :
    ∃ rest, (report d cfg f).trace = .reportCalled :: rest := by
  cases hw : cfg.WakeUpd
  · unfold report
    simp only [hw, Bool.false_eq_true, if_false]
    split
    · split <;> exact ⟨_, rfl⟩
    · exact ⟨_, rfl⟩
  · obtain ⟨rest, hr⟩ := report_capture_start d cfg f hw
    rw [hr]
    cases hsm : cfg.SilenceMode <;> simp

theorem isNeutral_spec {e : Event} (h : e.isNeutral = true) :
    e.isOnset = false ∧ e ≠ .decEndUtt := by
  cases e with
  | log m => cases m <;> simp_all [Event.isNeutral, Event.isOnset]
  | _ => simp_all [Event.isNeutral, Event.isOnset]

theorem rawToWav_neutral (cfg : Config) (f : Frame) :
    (rawToWav cfg f).all Event.isNeutral = true := by
  unfold rawToWav
  cases cfg.RawToWav <;> cases f.pcm2WavErr <;> simp [Event.isNeutral]

theorem dispatch_neutral (cfg : Config) (f : Frame) (m : GoString) :
    (dispatch cfg f m).all Event.isNeutral = true := by
  unfold dispatch
  cases hs : cfg.SilenceMode
  · simp [Event.isNeutral]
  · cases he : (f.actionLocal m).2 <;> simp [Event.isNeutral, he]

theorem reportFailure_neutral (cfg : Config) (m : GoString) :
    (reportFailure cfg m).all Event.isNeutral = true := by
  unfold reportFailure
  cases cfg.SilenceMode <;> simp [Event.isNeutral]

theorem report_all_neutral (d : Deps) (cfg : Config) (f : Frame) :
    (report d cfg f).trace.all Event.isNeutral = true := by
  have h1 := rawToWav_neutral cfg f
  cases hw : cfg.WakeUpd
  · by_cases hl : f.hypothesis.length > 0
    · by_cases hh : f.hypothesis = str "homo" ∨ f.hypothesis = str "como" <;>
        simp [report, hw, hl, hh, Event.isNeutral]
    · simp [report, hw, hl, Event.isNeutral]
  · by_cases hthr : ((serialize f.rawData).length : Int) < cfg.RecordThreshold
    · cases hsm : cfg.SilenceMode <;> simp [report, hw, hthr, hsm, Event.isNeutral]
    · rcases hst : f.speechToText with ⟨res, _ | err⟩
      · cases res with
        | nil =>
          cases hsm : cfg.SilenceMode <;> cases hwf : f.writeFileErr <;>
            simp [report, hw, hthr, hst, hsm, hwf, Event.isNeutral]
        | cons c cs =>
          cases hcm : cleanMessage d c <;> cases hsm : cfg.SilenceMode <;>
            cases hwf : f.writeFileErr <;>
            simp [report, hw, hthr, hst, hsm, hwf, hcm, Event.isNeutral, List.all_append, h1,
              dispatch_neutral]
      · by_cases hq : d.IsErrSpeechQuality err = true <;> cases hsm : cfg.SilenceMode <;>
          cases hwf : f.writeFileErr <;>
          simp [report, hw, hthr, hst, hsm, hwf, hq, Event.isNeutral, List.all_append, h1,
            reportFailure_neutral]

/-- Nothing `report` calls is a speech onset or an utterance close. -/
theorem report_neutral (d : Deps) (cfg : Config) (f : Frame) :
    ∀ e ∈ (report d cfg f).trace, e.isOnset = false ∧ e ≠ .decEndUtt := by
  intro e he
  exact isNeutral_spec (List.all_eq_true.mp (report_all_neutral d cfg f) e he)

theorem alternates_append_neutral (t rest : List Event) (b : Bool)
    (h : ∀ e ∈ t, e.isOnset = false ∧ e ≠ .decEndUtt) :
    alternates b (t ++ rest) = alternates b rest := by
  induction t with
  | nil => rfl
  | cons e es ih =>
    have he := h e (List.mem_cons_self _ _)
    simp only [List.cons_append, alternates, he.1, he.2, if_false, Bool.false_eq_true]
    exact ih (fun x hx => h x (List.mem_cons_of_mem _ hx))

theorem closeCount_neutral (t : List Event) (h : ∀ e ∈ t, e ≠ .decEndUtt) :
    closeCount t = 0 := by
  induction t with
  | nil => rfl
  | cons e es ih =>
    have he := h e (List.mem_cons_self _ _)
    simp only [closeCount, he, false_and, if_false, Nat.zero_add]
    exact ih (fun x hx => h x (List.mem_cons_of_mem _ hx))

theorem count_neutral (t : List Event) (h : ∀ e ∈ t, e ≠ .decEndUtt) :
    t.count .decEndUtt = 0 := by
  rw [List.count_eq_zero]
  intro hmem
  exact h _ hmem rfl

/-- Only `config.WakeUpd` is written by `report`. -/
theorem report_cfg (d : Deps) (cfg : Config) (f : Frame) :
    (report d cfg f).cfg = { cfg with WakeUpd := (report d cfg f).cfg.WakeUpd } := by
  cases hw : cfg.WakeUpd
  · by_cases hl : f.hypothesis.length > 0
    · by_cases hh : f.hypothesis = str "homo" ∨ f.hypothesis = str "como" <;>
        simp [report, hw, hl, hh]
      cases cfg; simp_all
    · simp [report, hw, hl]
      cases cfg; simp_all
  · have hc : ({ cfg with WakeUpd := true } : Config) = cfg := by cases cfg; simp_all
    by_cases hthr : ((serialize f.rawData).length : Int) < cfg.RecordThreshold
    · simp [report, hw, hthr, hc]
    · rcases hst : f.speechToText with ⟨res, _ | err⟩
      · cases res with
        | nil => simp [report, hw, hthr, hst, hc]
        | cons c cs => cases hcm : cleanMessage d c <;> simp [report, hw, hthr, hst, hcm, hc]
      · by_cases hq : d.IsErrSpeechQuality err = true <;> simp [report, hw, hthr, hst, hq, hc]

theorem close_trace_facts (t : List Event)
    (ht : ∀ e ∈ t, e.isOnset = false ∧ e ≠ .decEndUtt)
    (hh : ∃ rest, t = .reportCalled :: rest) :
    closeCount ([Event.decProcessRaw, Event.decIsInSpeech, Event.decEndUtt] ++ t) = 1 ∧
      ([Event.decProcessRaw, Event.decIsInSpeech, Event.decEndUtt] ++ t).count .decEndUtt = 1 ∧
      ∀ rest, alternates true (([Event.decProcessRaw, Event.decIsInSpeech, Event.decEndUtt] ++ t) ++ rest)
        = alternates false rest := by
  obtain ⟨tl, rfl⟩ := hh
  have hc := closeCount_neutral _ (fun e he => (ht e he).2)
  have hn := count_neutral _ (fun e he => (ht e he).2)
  refine ⟨?_, ?_, ?_⟩
  · simp [closeCount] at hc ⊢
    exact hc
  · simp only [List.cons_append, List.nil_append]
    rw [List.count_cons_of_ne (by simp), List.count_cons_of_ne (by simp),
      List.count_cons_self, hn]
  · intro rest
    have ha := alternates_append_neutral _ rest false ht
    simp only [List.cons_append, List.nil_append, alternates, Event.isOnset] at ha ⊢
    simpa using ha

/-- The callback on a silence frame while an utterance is open. -/
theorem paCallback_close (d : Deps) (cfg : Config) (l : Listener) (f : Frame)
    (hg : (cfg.IsPlayingVoice && !cfg.InterruptMode) = false)
    (hc : f.sampleCount * channels ≤ 2 ^ 24) (hp : f.processRawOk = true)
    (hs : f.isInSpeech = false) (hu : l.uttStarted = true) :
    ∃ tail out, (∀ e ∈ tail, e.isOnset = false ∧ e ≠ .decEndUtt) ∧
      paCallback d cfg l f =
        ⟨{ l with uttStarted := false }, (report d cfg f).cfg,
          [.decProcessRaw, .decIsInSpeech, .decEndUtt] ++ ((report d cfg f).trace ++ tail),
          out⟩ := by
  have hc2 : f.sampleCount * channels ≤ 16777216 := hc
  cases hr : (report d cfg f).returned
  · refine ⟨[], .panicked, by simp, ?_⟩
    simp [paCallback, hg, hc2, hp, hs, hu, hr]
  · cases hst : f.startUttOk
    · refine ⟨[.decStartUtt, .log .startUttFailed], .fatal, by simp [Event.isOnset], ?_⟩
      simp [paCallback, hg, hc2, hp, hs, hu, hr, hst]
    · refine ⟨[.decStartUtt], .returned .statusContinue, by simp [Event.isOnset], ?_⟩
      simp [paCallback, hg, hc2, hp, hs, hu, hr, hst]

/-- One admitted frame: the new `uttStarted` is the frame's class, a close is
emitted exactly on silence with an utterance open, and the trace keeps onsets
and closes alternating. -/
theorem step_processed (d : Deps) (w : World) (f : Frame)
    (hp : f.processed w.cfg.InterruptMode = true) :
    (step d w f).l.uttStarted = f.isInSpeech ∧
      (step d w f).cfg.InterruptMode = w.cfg.InterruptMode ∧
      closeCount (step d w f).trace = (if w.l.uttStarted && !f.isInSpeech then 1 else 0) ∧
      (step d w f).trace.count .decEndUtt
        = (if w.l.uttStarted && !f.isInSpeech then 1 else 0) ∧
      ∀ rest, alternates w.l.uttStarted ((step d w f).trace ++ rest)
        = alternates f.isInSpeech rest := by
  simp only [Frame.processed, Bool.and_eq_true, Bool.or_eq_true, Bool.not_eq_true',
    decide_eq_true_eq] at hp
  obtain ⟨⟨hgate, hcnt⟩, hraw⟩ := hp
  have hg : (({ w.cfg with IsPlayingVoice := f.isPlayingVoice } : Config).IsPlayingVoice &&
      !({ w.cfg with IsPlayingVoice := f.isPlayingVoice } : Config).InterruptMode) = false := by
    rcases hgate with h | h <;> simp [h]
  cases hs : f.isInSpeech
  · cases hu : w.l.uttStarted
    · have hr : step d w f =
          ⟨w.l, { w.cfg with IsPlayingVoice := f.isPlayingVoice },
            [.decProcessRaw, .decIsInSpeech], .returned .statusContinue⟩ := by
        simp only [step, paCallback, hg, hcnt, hraw, hs, hu]
        simp
      rw [hr]
      refine ⟨hu, rfl, by simp [closeCount], by simp, ?_⟩
      intro rest
      simp [alternates, Event.isOnset]
    · obtain ⟨tail, out, htail, hr⟩ :=
        paCallback_close d { w.cfg with IsPlayingVoice := f.isPlayingVoice } w.l f hg hcnt hraw
          hs hu
      have hstep : step d w f = _ := hr
      have hneutral : ∀ e ∈ (report d { w.cfg with IsPlayingVoice := f.isPlayingVoice } f).trace
          ++ tail, e.isOnset = false ∧ e ≠ .decEndUtt := by
        intro e he
        rcases List.mem_append.mp he with h | h
        · exact report_neutral _ _ _ e h
        · exact htail e h
      have hhead : ∃ rest,
          (report d { w.cfg with IsPlayingVoice := f.isPlayingVoice } f).trace ++ tail
            = .reportCalled :: rest := by
        obtain ⟨rest, h⟩ := report_trace_head d { w.cfg with IsPlayingVoice := f.isPlayingVoice } f
        exact ⟨rest ++ tail, by rw [h]; rfl⟩
      obtain ⟨c1, c2, c3⟩ := close_trace_facts _ hneutral hhead
      rw [hstep]
      refine ⟨rfl, ?_, by simpa using c1, by simpa using c2, fun rest => by simpa using c3 rest⟩
      have := report_cfg d { w.cfg with IsPlayingVoice := f.isPlayingVoice } f
      simp only []
      rw [this]
  · cases hu : w.l.uttStarted
    · have hr : step d w f =
          ⟨⟨true, true⟩, { w.cfg with IsPlayingVoice := f.isPlayingVoice },
            [.decProcessRaw, .decIsInSpeech,
              .log (if w.cfg.WakeUpd then .onsetRecord else .onsetWake)],
            .returned .statusContinue⟩ := by
        simp only [step, paCallback, hg, hcnt, hraw, hs, hu]
        simp
      rw [hr]
      refine ⟨rfl, rfl, by simp [closeCount], ?_, ?_⟩
      · cases w.cfg.WakeUpd <;> simp
      · intro rest
        cases w.cfg.WakeUpd <;> simp [alternates, Event.isOnset]
    · have hr : step d w f =
          ⟨{ w.l with inSpeech := true }, { w.cfg with IsPlayingVoice := f.isPlayingVoice },
            [.decProcessRaw, .decIsInSpeech], .returned .statusContinue⟩ := by
        simp only [step, paCallback, hg, hcnt, hraw, hs, hu]
        simp
      rw [hr]
      refine ⟨hu, rfl, by simp [closeCount], by simp, ?_⟩
      intro rest
      simp [alternates, Event.isOnset]

theorem runFrames_cons_continue (d : Deps) (w : World) (f : Frame) (fs : List Frame)
    (h : (step d w f).out = .returned .statusContinue) :
    runFrames d w (f :: fs) =
      ⟨(runFrames d ⟨(step d w f).l, (step d w f).cfg⟩ fs).final,
        (step d w f).trace :: (runFrames d ⟨(step d w f).l, (step d w f).cfg⟩ fs).traces,
        (runFrames d ⟨(step d w f).l, (step d w f).cfg⟩ fs).stop⟩ := by
  simp only [runFrames, h]

theorem runFrames_cons_stop (d : Deps) (w : World) (f : Frame) (fs : List Frame)
    (h : (step d w f).out ≠ .returned .statusContinue) :
    runFrames d w (f :: fs) =
      ⟨⟨(step d w f).l, (step d w f).cfg⟩, [(step d w f).trace], some (step d w f).out⟩ := by
  simp only [runFrames]

theorem runs_cons_head (c : Bool) (cs : List Bool) :
    ∃ n rest, runs (c :: cs) = (c, n) :: rest := by
  simp only [runs]
  split
  · exact ⟨_, _, rfl⟩
  · split <;> exact ⟨_, _, rfl⟩

theorem closedSpeechRuns_cons (c : Bool) (cs : List Bool) :
    closedSpeechRuns (c :: cs) =
      closedSpeechRuns cs + (if c && cs.head? == some false then 1 else 0) := by
  cases cs with
  | nil => simp [closedSpeechRuns, runs]
  | cons c' cs' =>
    obtain ⟨n, rest, hr⟩ := runs_cons_head c' cs'
    simp only [closedSpeechRuns, runs.eq_2 c (c' :: cs'), hr, List.head?_cons]
    by_cases hcc : c = c'
    · subst hcc
      cases rest with
      | nil => cases c <;> simp
      | cons x xs => cases c <;> simp [List.dropLast]
    · cases c <;> cases c' <;> simp_all [List.dropLast]

theorem closePositions_count (prev : Bool) (cls : List Bool) :
    ((closePositions prev cls).map fun b => if b then 1 else 0).sum =
      closedSpeechRuns cls + (if prev && cls.head? == some false then 1 else 0) := by
  induction cls generalizing prev with
  | nil => simp [closePositions, closedSpeechRuns, runs]
  | cons c cs ih =>
    simp only [closePositions, List.map_cons, List.sum_cons, ih c, closedSpeechRuns_cons,
      List.head?_cons]
    cases prev <;> cases c <;> (simp; try omega)

/-- The run from any world whose frames are all admitted. -/
theorem run_processed (d : Deps) (w : World) (fs : List Frame)
    (hp : ∀ f ∈ fs, f.processed w.cfg.InterruptMode = true) :
    (runFrames d w fs).traces.map closeCount =
        ((closePositions w.l.uttStarted (fs.map fun f => f.isInSpeech)).take
          (runFrames d w fs).traces.length).map (fun b => if b then 1 else 0) ∧
      (runFrames d w fs).traces.map (List.count .decEndUtt) =
        ((closePositions w.l.uttStarted (fs.map fun f => f.isInSpeech)).take
          (runFrames d w fs).traces.length).map (fun b => if b then 1 else 0) ∧
      (runFrames d w fs).traces.length ≤ fs.length ∧
      ((runFrames d w fs).stop = none → (runFrames d w fs).traces.length = fs.length) ∧
      alternates w.l.uttStarted (runFrames d w fs).traces.flatten = true := by
  induction fs generalizing w with
  | nil => simp [runFrames, closePositions, alternates]
  | cons f fs ih =>
    obtain ⟨s1, s2, s3, s4, s5⟩ := step_processed d w f (hp f (List.mem_cons_self _ _))
    by_cases hout : (step d w f).out = .returned .statusContinue
    · have hp2 : ∀ g ∈ fs, g.processed
          (⟨(step d w f).l, (step d w f).cfg⟩ : World).cfg.InterruptMode = true := by
        intro g hg
        simp only [s2]
        exact hp g (List.mem_cons_of_mem _ hg)
      obtain ⟨i1, i2, i3, i4, i5⟩ := ih ⟨(step d w f).l, (step d w f).cfg⟩ hp2
      simp only [s1] at i1 i2 i5
      rw [runFrames_cons_continue d w f fs hout]
      refine ⟨?_, ?_, ?_, ?_, ?_⟩
      · simp only [List.map_cons, List.length_cons, closePositions, List.take_succ_cons, s3, i1]
      · simp only [List.map_cons, List.length_cons, closePositions, List.take_succ_cons, s4, i2]
      · simp only [List.length_cons]; omega
      · intro hstop
        simp only [List.length_cons]
        rw [i4 hstop]
      · simp only [List.flatten_cons, s5, i5]
    · rw [runFrames_cons_stop d w f fs hout]
      refine ⟨?_, ?_, ?_, ?_, ?_⟩
      · simp only [List.map_cons, List.map_nil, List.length_singleton, closePositions,
          List.take_succ_cons, List.take_zero, s3]
      · simp only [List.map_cons, List.map_nil, List.length_singleton, closePositions,
          List.take_succ_cons, List.take_zero, s4]
      · simp
      · intro hstop; simp at hstop
      · simp only [List.flatten_cons, List.flatten_nil, s5, alternates]

theorem closePositions_length (prev : Bool) (cls : List Bool) :
    (closePositions prev cls).length = cls.length := by
  induction cls generalizing prev with
  | nil => rfl
  | cons c cs ih => simp [closePositions, ih]

/-- A run from the initial listener that handles every frame emits as many
closes as there are maximal speech runs followed by silence. -/
theorem run_close_total (d : Deps) (cfg : Config) (fs : List Frame)
    (hp : ∀ f ∈ fs, f.processed cfg.InterruptMode = true)
    (hstop : (runFrames d ⟨Listener.initial, cfg⟩ fs).stop = none) :
    ((runFrames d ⟨Listener.initial, cfg⟩ fs).traces.map closeCount).sum =
      closedSpeechRuns (fs.map fun f => f.isInSpeech) := by
  obtain ⟨h1, _, _, h4, _⟩ := run_processed d ⟨Listener.initial, cfg⟩ fs hp
  have hlen := closePositions_length Listener.initial.uttStarted (fs.map fun f => f.isInSpeech)
  rw [List.length_map] at hlen
  rw [h1, h4 hstop]
  conv_lhs => rw [← hlen, List.take_length]
  rw [closePositions_count]
  simp [Listener.initial]

/-- The callback keeps `uttStarted → inSpeech`, whatever the frame. -/
theorem paCallback_inv (d : Deps) (cfg : Config) (l : Listener) (f : Frame)
    (h : l.uttStarted = true → l.inSpeech = true) :
    (paCallback d cfg l f).l.uttStarted = true → (paCallback d cfg l f).l.inSpeech = true := by
  unfold paCallback
  split
  · exact h
  · split
    · exact h
    · split
      · exact h
      · split
        · split <;> simp
        · split
          · simp only []
            split
            · simp
            · split <;> simp
          · exact h

theorem run_inv (d : Deps) (w : World) (fs : List Frame)
    (h : w.l.uttStarted = true → w.l.inSpeech = true) :
    (runFrames d w fs).final.l.uttStarted = true →
      (runFrames d w fs).final.l.inSpeech = true := by
  induction fs generalizing w with
  | nil => exact h
  | cons f fs ih =>
    have hs := paCallback_inv d { w.cfg with IsPlayingVoice := f.isPlayingVoice } w.l f h
    by_cases hout : (step d w f).out = .returned .statusContinue
    · rw [runFrames_cons_continue d w f fs hout]
      exact ih ⟨(step d w f).l, (step d w f).cfg⟩ hs
    · rw [runFrames_cons_stop d w f fs hout]
      exact hs

/-- The one way `report` fails to return: capture mode, a capture at or above
the threshold, a successful recognition whose first candidate is empty. -/
theorem report_returned_false_iff (d : Deps) (cfg : Config) (f : Frame) :
    (report d cfg f).returned = false ↔
      cfg.WakeUpd = true ∧ ¬ ((serialize f.rawData).length : Int) < cfg.RecordThreshold ∧
        ∃ cs, f.speechToText = ([] :: cs, none) := by
  cases hw : cfg.WakeUpd
  · by_cases hl : f.hypothesis.length > 0
    · by_cases hh : f.hypothesis = str "homo" ∨ f.hypothesis = str "como" <;>
        simp [report, hw, hl, hh]
    · simp [report, hw, hl]
  · by_cases hthr : ((serialize f.rawData).length : Int) < cfg.RecordThreshold
    · simp [report, hw, hthr]
    · rcases hst : f.speechToText with ⟨res, _ | err⟩
      · cases res with
        | nil => simp [report, hw, hthr, hst]
        | cons c cs =>
          by_cases hc : c = []
          · subst hc
            have hcm : cleanMessage d [] = none := rfl
            simp [report, hw, hthr, hst, hcm]
          · simp [report, hw, hthr, hst, cleanMessage_eq d c hc, hc]
      · by_cases hq : d.IsErrSpeechQuality err = true <;> simp [report, hw, hthr, hst, hq]

/-- When `report` returns, the closing frame calls `StartUtt` once, last, and
the outcome depends on its result alone. -/
theorem close_frame_reopens (d : Deps) (cfg : Config) (l : Listener) (f : Frame)
    (hg : (cfg.IsPlayingVoice && !cfg.InterruptMode) = false)
    (hc : f.sampleCount * channels ≤ 2 ^ 24) (hp : f.processRawOk = true)
    (hs : f.isInSpeech = false) (hu : l.uttStarted = true)
    (hr : (report d cfg f).returned = true) :
    paCallback d cfg l f =
      ⟨{ l with uttStarted := false }, (report d cfg f).cfg,
        [.decProcessRaw, .decIsInSpeech, .decEndUtt] ++ (report d cfg f).trace ++
          (if f.startUttOk then [.decStartUtt] else [.decStartUtt, .log .startUttFailed]),
        if f.startUttOk then .returned .statusContinue else .fatal⟩ := by
  have hc2 : f.sampleCount * channels ≤ 16777216 := hc
  cases hst : f.startUttOk <;> simp [paCallback, hg, hc2, hp, hs, hu, hr, hst]

/-! ## Claims -/

/-- C1: started from the initial listener on frames that are all admitted
(playback gate not active, `ProcessRaw` succeeds), the callback emits one
utterance close (`EndUtt` followed by the entry of `report`) on each frame that
is the first silence frame after a run of speech frames, and none on any other
frame; every frame is handled unless an invocation ended the stream; when
every frame is handled, the closes are as many as the maximal runs of speech
frames that a silence frame follows; in the whole trace onsets and closes
alternate, so no two closes come without a speech onset between them. -/
theorem one_close_per_speech_run (d : Deps) (cfg : Config) (fs : List Frame)
    (hp : ∀ f ∈ fs, f.processed cfg.InterruptMode = true) :
    (runFrames d ⟨Listener.initial, cfg⟩ fs).traces.map closeCount =
        ((closePositions false (fs.map fun f => f.isInSpeech)).take
          (runFrames d ⟨Listener.initial, cfg⟩ fs).traces.length).map
            (fun b => if b then 1 else 0) ∧
      (runFrames d ⟨Listener.initial, cfg⟩ fs).traces.map (List.count .decEndUtt) =
        ((closePositions false (fs.map fun f => f.isInSpeech)).take
          (runFrames d ⟨Listener.initial, cfg⟩ fs).traces.length).map
            (fun b => if b then 1 else 0) ∧
      (runFrames d ⟨Listener.initial, cfg⟩ fs).traces.length ≤ fs.length ∧
      ((runFrames d ⟨Listener.initial, cfg⟩ fs).stop = none →
        (runFrames d ⟨Listener.initial, cfg⟩ fs).traces.length = fs.length) ∧
      ((runFrames d ⟨Listener.initial, cfg⟩ fs).stop = none →
        ((runFrames d ⟨Listener.initial, cfg⟩ fs).traces.map closeCount).sum =
          closedSpeechRuns (fs.map fun f => f.isInSpeech)) ∧
      alternates false (runFrames d ⟨Listener.initial, cfg⟩ fs).traces.flatten = true := by
  obtain ⟨h1, h2, h3, h4, h5⟩ := run_processed d ⟨Listener.initial, cfg⟩ fs hp
  exact ⟨h1, h2, h3, h4, run_close_total d cfg fs hp, h5⟩

/-- Witness of C1: speech, speech, silence, silence, speech, silence gives
closes on the third and the sixth frame. -/
theorem one_close_per_speech_run_witness :
    ((runFrames exDeps ⟨Listener.initial, exWakeCfg⟩ exFrames).traces.map closeCount =
        ((closePositions false (exFrames.map fun f => f.isInSpeech)).take
          (runFrames exDeps ⟨Listener.initial, exWakeCfg⟩ exFrames).traces.length).map
            (fun b => if b then 1 else 0) ∧
      (runFrames exDeps ⟨Listener.initial, exWakeCfg⟩ exFrames).traces.map
          (List.count .decEndUtt) =
        ((closePositions false (exFrames.map fun f => f.isInSpeech)).take
          (runFrames exDeps ⟨Listener.initial, exWakeCfg⟩ exFrames).traces.length).map
            (fun b => if b then 1 else 0) ∧
      (runFrames exDeps ⟨Listener.initial, exWakeCfg⟩ exFrames).traces.length
        ≤ exFrames.length ∧
      ((runFrames exDeps ⟨Listener.initial, exWakeCfg⟩ exFrames).stop = none →
        (runFrames exDeps ⟨Listener.initial, exWakeCfg⟩ exFrames).traces.length
          = exFrames.length) ∧
      ((runFrames exDeps ⟨Listener.initial, exWakeCfg⟩ exFrames).stop = none →
        ((runFrames exDeps ⟨Listener.initial, exWakeCfg⟩ exFrames).traces.map closeCount).sum =
          closedSpeechRuns (exFrames.map fun f => f.isInSpeech)) ∧
      alternates false (runFrames exDeps ⟨Listener.initial, exWakeCfg⟩ exFrames).traces.flatten
        = true) ∧
      (runFrames exDeps ⟨Listener.initial, exWakeCfg⟩ exFrames).traces.map closeCount
        = [0, 0, 1, 0, 0, 1] ∧
      runs (exFrames.map fun f => f.isInSpeech)
        = [(true, 2), (false, 2), (true, 1), (false, 1)] ∧
      closedSpeechRuns (exFrames.map fun f => f.isInSpeech) = 2 :=
  ⟨one_close_per_speech_run exDeps exWakeCfg exFrames (by decide), by decide, by decide,
    by decide⟩

/-- C2: while `config.IsPlayingVoice` is true and `config.InterruptMode` is
false, `paCallback` returns `statusContinue`, calls nothing (no decoder call,
no `report`: its trace is empty) and leaves the listener and the configuration
as they were; any number of such invocations leaves the world as zero do. -/
theorem gated_callback_is_noop (d : Deps) (w : World) (f : Frame) (fs : List Frame)
    (hp : w.cfg.IsPlayingVoice = true) (hi : w.cfg.InterruptMode = false)
    (hfs : ∀ g ∈ fs, g.isPlayingVoice = true) :
    paCallback d w.cfg w.l f = ⟨w.l, w.cfg, [], .returned .statusContinue⟩ ∧
      runFrames d w fs = ⟨w, fs.map (fun _ => []), none⟩ := by
  obtain ⟨l, cfg⟩ := w
  obtain ⟨wu, pv, im, sm, om, rw, rt, ir, iw⟩ := cfg
  simp only at hp hi
  subst hp hi
  refine ⟨by simp [paCallback], ?_⟩
  induction fs with
  | nil => simp [runFrames]
  | cons g gs ih =>
    have hg : g.isPlayingVoice = true := hfs g (List.mem_cons_self _ _)
    have ih2 := ih (fun x hx => hfs x (List.mem_cons_of_mem _ hx))
    simp [runFrames, step, paCallback, hg, ih2]

/-- Witness of C2 on a playing world and three gated frames. -/
theorem gated_callback_is_noop_witness :
    paCallback exDeps { exWakeCfg with IsPlayingVoice := true } ⟨true, true⟩ (exFrame false)
        = ⟨⟨true, true⟩, { exWakeCfg with IsPlayingVoice := true }, [],
            .returned .statusContinue⟩ ∧
      runFrames exDeps ⟨⟨true, true⟩, { exWakeCfg with IsPlayingVoice := true }⟩
          [{ exFrame true with isPlayingVoice := true },
           { exFrame false with isPlayingVoice := true },
           { exFrame false with isPlayingVoice := true }]
        = ⟨⟨⟨true, true⟩, { exWakeCfg with IsPlayingVoice := true }⟩, [[], [], []], none⟩ :=
  gated_callback_is_noop exDeps ⟨⟨true, true⟩, { exWakeCfg with IsPlayingVoice := true }⟩
    (exFrame false) _ rfl rfl (by simp [exFrame])

/-- C3: in capture mode, when the serialised capture (two bytes per sample)
is shorter than `config.RecordThreshold`, `report` logs the cancellation, calls
`view.TypingAnimateStop` and returns: the speech-to-text service is not called
and no reply or input text reaches the view. -/
theorem short_capture_not_recognised (d : Deps) (cfg : Config) (f : Frame)
    (hw : cfg.WakeUpd = true)
    (hlen : 2 * (f.rawData.length : Int) < cfg.RecordThreshold) :
    (serialize f.rawData).length = 2 * f.rawData.length ∧
      report d cfg f =
        ⟨cfg,
          (if !cfg.SilenceMode then [.reportCalled, .viewTypingAnimate] else [.reportCalled]) ++
            [.decRawData, .log (.belowThreshold cfg.RecordThreshold), .viewTypingAnimateStop],
          true⟩ ∧
      ∀ e ∈ (report d cfg f).trace, e.isSpeechToText = false ∧ e.isViewText = false := by
  have hs := serialize_length f.rawData
  have hlt : ((serialize f.rawData).length : Int) < cfg.RecordThreshold := by
    rw [hs]; push_cast; exact hlen
  have hr : report d cfg f =
      ⟨cfg,
        (if !cfg.SilenceMode then [.reportCalled, .viewTypingAnimate] else [.reportCalled]) ++
          [.decRawData, .log (.belowThreshold cfg.RecordThreshold), .viewTypingAnimateStop],
        true⟩ := by
    simp [report, hw, hlt]
  refine ⟨hs, hr, ?_⟩
  rw [hr]
  cases hsm : cfg.SilenceMode <;>
    simp [Event.isSpeechToText, Event.isViewText]

/-- Witness of C3: 25000 samples are 50000 bytes, below the threshold 100000. -/
theorem short_capture_not_recognised_witness :
    (serialize exShortFrame.rawData).length = 2 * exShortFrame.rawData.length ∧
      report exDeps exCaptureCfg exShortFrame =
        ⟨exCaptureCfg,
          (if !exCaptureCfg.SilenceMode then [.reportCalled, .viewTypingAnimate]
            else [.reportCalled]) ++
            [.decRawData, .log (.belowThreshold exCaptureCfg.RecordThreshold),
             .viewTypingAnimateStop],
          true⟩ ∧
      ∀ e ∈ (report exDeps exCaptureCfg exShortFrame).trace,
        e.isSpeechToText = false ∧ e.isViewText = false :=
  short_capture_not_recognised exDeps exCaptureCfg exShortFrame rfl
    (by
      show 2 * ((List.replicate 25000 (0 : Int)).length : Int) < 100000
      rw [List.length_replicate]
      norm_num)

/-- C4, as the claim states it, fails: `HOMO` and `Homo` equal the trigger
`homo` without regard to case, and `report` neither releases the wake gate nor
sets `config.WakeUpd` for them. -/
theorem capitalised_trigger_does_not_wake :
    equalFold (str "HOMO") (str "homo") = true ∧
      (report exDeps exWakeCfg (exHypFrame (str "HOMO"))).cfg.WakeUpd = false ∧
      Event.wakeUpWaitDone ∉ (report exDeps exWakeCfg (exHypFrame (str "HOMO"))).trace ∧
      equalFold (str "Homo") (str "homo") = true ∧
      (report exDeps exWakeCfg (exHypFrame (str "Homo"))).cfg.WakeUpd = false ∧
      Event.wakeUpWaitDone ∉ (report exDeps exWakeCfg (exHypFrame (str "Homo"))).trace := by
  decide

/-- C4 amended: in wake-word mode, for a hypothesis equal byte for byte to
`homo` or `como`, `report` logs the hit, releases the wake gate, sets
`config.WakeUpd`, and calls nothing else (no speech-to-text call); a report
under the configuration it leaves takes the capture branch. -/
theorem exact_trigger_wakes (d : Deps) (cfg : Config) (f g : Frame)
    (hw : cfg.WakeUpd = false)
    (hh : f.hypothesis = str "homo" ∨ f.hypothesis = str "como") :
    report d cfg f =
        ⟨{ cfg with WakeUpd := true },
          [.reportCalled, .decHypothesis, .log .wakeHit, .wakeUpWaitDone], true⟩ ∧
      (∀ e ∈ (report d cfg f).trace, e.isSpeechToText = false) ∧
      ∃ rest, (report d (report d cfg f).cfg g).trace =
        (if !cfg.SilenceMode then [.reportCalled, .viewTypingAnimate] else [.reportCalled]) ++
          .decRawData :: rest := by
  have hlen : f.hypothesis.length > 0 := by
    rcases hh with h | h <;> rw [h] <;> decide
  have hr : report d cfg f =
      ⟨{ cfg with WakeUpd := true },
        [.reportCalled, .decHypothesis, .log .wakeHit, .wakeUpWaitDone], true⟩ := by
    simp [report, hw, hlen, hh]
  refine ⟨hr, ?_, ?_⟩
  · rw [hr]; simp [Event.isSpeechToText]
  · rw [hr]
    exact report_capture_start d { cfg with WakeUpd := true } g rfl

/-- Witness of C4 amended: the hypothesis `homo`. -/
theorem exact_trigger_wakes_witness :
    report exDeps exWakeCfg (exHypFrame (str "homo")) =
        ⟨{ exWakeCfg with WakeUpd := true },
          [.reportCalled, .decHypothesis, .log .wakeHit, .wakeUpWaitDone], true⟩ ∧
      (∀ e ∈ (report exDeps exWakeCfg (exHypFrame (str "homo"))).trace,
        e.isSpeechToText = false) ∧
      ∃ rest, (report exDeps (report exDeps exWakeCfg (exHypFrame (str "homo"))).cfg
          exShortFrame).trace =
        (if !exWakeCfg.SilenceMode then [.reportCalled, .viewTypingAnimate]
          else [.reportCalled]) ++ .decRawData :: rest :=
  exact_trigger_wakes exDeps exWakeCfg (exHypFrame (str "homo")) exShortFrame rfl (Or.inl rfl)

/-- C5: in wake-word mode, for a hypothesis (the empty one included) that is
not a case-insensitive match of `homo` or `como`, `report` leaves the
configuration as it was (`config.WakeUpd` false), does not release the wake
gate and calls neither the speech-to-text service, the dialogue engine nor the
view. -/
theorem unmatched_hypothesis_does_not_wake (d : Deps) (cfg : Config) (f : Frame)
    (hw : cfg.WakeUpd = false)
    (h1 : equalFold f.hypothesis (str "homo") = false)
    (h2 : equalFold f.hypothesis (str "como") = false) :
    report d cfg f =
        ⟨cfg,
          if f.hypothesis.length > 0 then [.reportCalled, .decHypothesis]
          else [.reportCalled, .decHypothesis, .log .noWakeWord],
          true⟩ ∧
      (report d cfg f).cfg.WakeUpd = false ∧
      ∀ e ∈ (report d cfg f).trace,
        e ≠ .wakeUpWaitDone ∧ e.isSpeechToText = false ∧ e.isDialogue = false ∧
          e.isViewCall = false := by
  have n1 := ne_of_equalFold_false h1
  have n2 := ne_of_equalFold_false h2
  have hr : report d cfg f =
      ⟨cfg,
        if f.hypothesis.length > 0 then [.reportCalled, .decHypothesis]
        else [.reportCalled, .decHypothesis, .log .noWakeWord],
        true⟩ := by
    by_cases hlen : f.hypothesis.length > 0 <;> simp [report, hw, hlen, n1, n2]
  refine ⟨hr, by rw [hr]; exact hw, ?_⟩
  rw [hr]
  by_cases hlen : f.hypothesis.length > 0 <;>
    simp [hlen, Event.isSpeechToText, Event.isDialogue, Event.isViewCall]

/-- Witness of C5: the hypothesis `hello`. -/
theorem unmatched_hypothesis_does_not_wake_witness :
    report exDeps exWakeCfg (exHypFrame (str "hello")) =
        ⟨exWakeCfg,
          if (exHypFrame (str "hello")).hypothesis.length > 0
          then [.reportCalled, .decHypothesis]
          else [.reportCalled, .decHypothesis, .log .noWakeWord],
          true⟩ ∧
      (report exDeps exWakeCfg (exHypFrame (str "hello"))).cfg.WakeUpd = false ∧
      ∀ e ∈ (report exDeps exWakeCfg (exHypFrame (str "hello"))).trace,
        e ≠ .wakeUpWaitDone ∧ e.isSpeechToText = false ∧ e.isDialogue = false ∧
          e.isViewCall = false :=
  unmatched_hypothesis_does_not_wake exDeps exWakeCfg (exHypFrame (str "hello")) rfl
    (by decide) (by decide)

/-- C6: in capture mode, for a capture at or above the threshold and a
successful recognition whose first candidate `c` has at least one character,
`report` returns and hands exactly one text downstream (to the dialogue engine
in silence mode, to the view otherwise): the empty string when the last rune
of `c` is in `unicode.Han`, and otherwise the runes of `c` without the last
one, re-encoded.  The runes of that text are those of `c` without the last;
when `c` is well-formed UTF-8, `c` is that text followed by the encoding of
its last rune. -/
theorem cleaned_text_drops_last_rune (d : Deps) (cfg : Config) (f : Frame)
    (c : GoString) (cs : List GoString)
    (hw : cfg.WakeUpd = true)
    (hthr : cfg.RecordThreshold ≤ 2 * (f.rawData.length : Int))
    (hstt : f.speechToText = (c :: cs, none))
    (hc : c ≠ []) :
    ∃ last, (stringToRunes c).getLast? = some last ∧
      (report d cfg f).returned = true ∧
      forwardedTexts (report d cfg f).trace =
        [if unicodeIs d.Han last = true then []
         else runesToString (stringToRunes c).dropLast] ∧
      stringToRunes (runesToString (stringToRunes c).dropLast) = (stringToRunes c).dropLast ∧
      ∀ rs : List Int, (∀ r ∈ rs, validRune r = true) → c = runesToString rs →
        stringToRunes c = rs ∧ c = runesToString rs.dropLast ++ encodeRune last := by
  have hne := stringToRunes_ne_nil hc
  have hs2 := serialize_length f.rawData
  have hge : ¬ ((serialize f.rawData).length : Int) < cfg.RecordThreshold := by
    rw [hs2]; push_cast; omega
  have hm := cleanMessage_eq d c hc
  refine ⟨(stringToRunes c).getLast hne, List.getLast?_eq_getLast _ hne, ?_, ?_, ?_, ?_⟩
  · simp only [report, hw, hge, hstt, hm]
    simp
  · simp only [report, hw, hge, hstt, hm]
    simp only [if_true, if_false, forwardedTexts_append, forwardedTexts_dispatch,
      forwardedTexts_rawToWav]
    cases cfg.SilenceMode <;> cases f.writeFileErr <;> simp [forwardedTexts]
  · apply stringToRunes_runesToString
    intro r hr
    exact stringToRunesAux_valid _ _ r (List.mem_of_mem_dropLast hr)
  · intro rs hv hrs
    have hdec : stringToRunes c = rs := by
      rw [hrs]; exact stringToRunes_runesToString rs hv
    refine ⟨hdec, ?_⟩
    have hrne : rs ≠ [] := by rw [← hdec]; exact hne
    have hlast : (stringToRunes c).getLast hne = rs.getLast hrne := by
      simp only [hdec]
    rw [hlast]
    have hsplit : runesToString rs =
        runesToString rs.dropLast ++ encodeRune (rs.getLast hrne) := by
      conv_lhs => rw [← List.dropLast_append_getLast hrne]
      rw [runesToString_append]
      simp [runesToString]
    rw [hrs]
    exact hsplit

/-- Witness of C6: the candidate `你好。` gives the cleaned text `你好`. -/
theorem cleaned_text_drops_last_rune_witness :
    (∃ last, (stringToRunes (str "你好。")).getLast? = some last ∧
      (report exDeps exSilentCfg (exRecognisedFrame [str "你好。"])).returned = true ∧
      forwardedTexts (report exDeps exSilentCfg (exRecognisedFrame [str "你好。"])).trace =
        [if unicodeIs exDeps.Han last = true then []
         else runesToString (stringToRunes (str "你好。")).dropLast] ∧
      stringToRunes (runesToString (stringToRunes (str "你好。")).dropLast) =
        (stringToRunes (str "你好。")).dropLast ∧
      ∀ rs : List Int, (∀ r ∈ rs, validRune r = true) → str "你好。" = runesToString rs →
        stringToRunes (str "你好。") = rs ∧
          str "你好。" = runesToString rs.dropLast ++ encodeRune last) ∧
      forwardedTexts (report exDeps exSilentCfg (exRecognisedFrame [str "你好。"])).trace =
        [str "你好"] :=
  ⟨cleaned_text_drops_last_rune exDeps exSilentCfg (exRecognisedFrame [str "你好。"])
    (str "你好。") [] rfl (by decide) rfl (by decide), by decide⟩

/-- C7, as the claim states it, fails: in silence mode the reply of the
dialogue engine is sent to the view neither with voice (online) nor without
(offline); `report` makes no call to the view. -/
theorem silence_mode_reply_not_delivered :
    report exDeps exSilentCfg (exRecognisedFrame [str "你好。"]) =
        ⟨exSilentCfg,
          [.reportCalled, .decRawData, .log (.savingRaw (str "input.raw") 6),
           .writeFile (str "input.raw") [12, 0, 253, 255, 7, 0],
           .speechToText (str "input.raw") 16000, .nluActionLocal (str "你好")],
          true⟩ ∧
      Event.viewSendReplyWithVoice [str "ok"] ∉
        (report exDeps exSilentCfg (exRecognisedFrame [str "你好。"])).trace ∧
      Event.viewSendReply [str "ok"] ∉
        (report exDeps { exSilentCfg with OfflineMode := true }
          (exRecognisedFrame [str "你好。"])).trace := by
  decide

/-- C7 amended: in capture mode, for a capture at or above the threshold and a
successful recognition whose first candidate is not empty, when
`config.SilenceMode` is true `report` hands the cleaned text to
`nlu.ActionLocal`, logs the engine's error if there is one, and makes no call
to the view, whatever `config.OfflineMode` is: the reply is not delivered. -/
theorem silence_mode_queries_dialogue_only (d : Deps) (cfg : Config) (f : Frame)
    (c : GoString) (cs : List GoString)
    (hw : cfg.WakeUpd = true)
    (hthr : cfg.RecordThreshold ≤ 2 * (f.rawData.length : Int))
    (hs : cfg.SilenceMode = true)
    (hstt : f.speechToText = (c :: cs, none))
    (hc : c ≠ []) :
    ∃ message, cleanMessage d c = some message ∧
      report d cfg f =
        ⟨cfg,
          [.reportCalled, .decRawData,
           .log (.savingRaw cfg.InputRaw (serialize f.rawData).length),
           .writeFile cfg.InputRaw (serialize f.rawData)] ++
            (match f.writeFileErr with
             | some e => [.log (.writeFileFailed e.msg)]
             | none => []) ++
            [.speechToText cfg.InputRaw sampleRate, .nluActionLocal message] ++
            (match (f.actionLocal message).2 with
             | some e => [.log (.nluFailed e.msg)]
             | none => []) ++
            rawToWav cfg f,
          true⟩ ∧
      ∀ e ∈ (report d cfg f).trace, e.isViewCall = false := by
  have hs2 := serialize_length f.rawData
  have hge : ¬ ((serialize f.rawData).length : Int) < cfg.RecordThreshold := by
    rw [hs2]; push_cast; omega
  obtain ⟨m, hm⟩ : ∃ m, cleanMessage d c = some m := ⟨_, cleanMessage_eq d c hc⟩
  refine ⟨m, hm, ?_⟩
  have hr : report d cfg f =
      ⟨cfg,
        [.reportCalled, .decRawData,
         .log (.savingRaw cfg.InputRaw (serialize f.rawData).length),
         .writeFile cfg.InputRaw (serialize f.rawData)] ++
          (match f.writeFileErr with
           | some e => [.log (.writeFileFailed e.msg)]
           | none => []) ++
          [.speechToText cfg.InputRaw sampleRate, .nluActionLocal m] ++
          (match (f.actionLocal m).2 with
           | some e => [.log (.nluFailed e.msg)]
           | none => []) ++
          rawToWav cfg f,
        true⟩ := by
    simp only [report, hw, hge, hstt, hm, hs, dispatch]
    simp
  refine ⟨hr, ?_⟩
  rw [hr]
  intro e he
  simp only [List.mem_append, List.mem_cons, List.mem_singleton, List.not_mem_nil,
    or_false, rawToWav] at he
  rcases he with ((he | he) | he) | he
  · rcases he with he | he
    · rcases he with he | he | he | he <;> subst he <;> rfl
    · split at he
      · simp at he; subst he; rfl
      · simp at he
  · rcases he with he | he <;> subst he <;> rfl
  · split at he
    · simp at he; subst he; rfl
    · simp at he
  · split at he
    · split at he
      · simp at he; rcases he with he | he <;> subst he <;> rfl
      · simp at he; rcases he with he | he <;> subst he <;> rfl
    · simp at he

/-- Witness of C7 amended: the candidate `你好。` in silence mode. -/
theorem silence_mode_queries_dialogue_only_witness :
    ∃ message, cleanMessage exDeps (str "你好。") = some message ∧
      report exDeps exSilentCfg (exRecognisedFrame [str "你好。"]) =
        ⟨exSilentCfg,
          [.reportCalled, .decRawData,
           .log (.savingRaw exSilentCfg.InputRaw
             (serialize (exRecognisedFrame [str "你好。"]).rawData).length),
           .writeFile exSilentCfg.InputRaw
             (serialize (exRecognisedFrame [str "你好。"]).rawData)] ++
            (match (exRecognisedFrame [str "你好。"]).writeFileErr with
             | some e => [.log (.writeFileFailed e.msg)]
             | none => []) ++
            [.speechToText exSilentCfg.InputRaw sampleRate, .nluActionLocal message] ++
            (match ((exRecognisedFrame [str "你好。"]).actionLocal message).2 with
             | some e => [.log (.nluFailed e.msg)]
             | none => []) ++
            rawToWav exSilentCfg (exRecognisedFrame [str "你好。"]),
          true⟩ ∧
      ∀ e ∈ (report exDeps exSilentCfg (exRecognisedFrame [str "你好。"])).trace,
        e.isViewCall = false :=
  silence_mode_queries_dialogue_only exDeps exSilentCfg (exRecognisedFrame [str "你好。"])
    (str "你好。") [] rfl (by decide) rfl rfl (by decide)

/-- C8: for the same configuration and the same capture at or above the
threshold, `report` behaves the same when the recognition succeeds with zero
candidates and when it fails with a quality error: after the recognition call
it calls `view.TypingAnimateStop` and returns, and does nothing else (nothing
is logged after the call); no reply or input text is sent to the view, the
dialogue engine is not called, no recognition error is logged and the capture
is not converted to wav. -/
theorem zero_candidates_same_as_quality_error (d : Deps) (cfg : Config) (f : Frame)
    (err : GoError) (resultOnError : List GoString)
    (hw : cfg.WakeUpd = true)
    (hthr : cfg.RecordThreshold ≤ 2 * (f.rawData.length : Int))
    (hq : d.IsErrSpeechQuality err = true) :
    report d cfg { f with speechToText := ([], none) } =
        report d cfg { f with speechToText := (resultOnError, some err) } ∧
      report d cfg { f with speechToText := ([], none) } =
        ⟨cfg,
          (if !cfg.SilenceMode then [.reportCalled, .viewTypingAnimate] else [.reportCalled]) ++
            [.decRawData, .log (.savingRaw cfg.InputRaw (serialize f.rawData).length),
             .writeFile cfg.InputRaw (serialize f.rawData)] ++
            (match f.writeFileErr with
             | some e => [.log (.writeFileFailed e.msg)]
             | none => []) ++
            [.speechToText cfg.InputRaw sampleRate, .viewTypingAnimateStop],
          true⟩ ∧
      afterRecognition (report d cfg { f with speechToText := ([], none) }).trace =
        [.viewTypingAnimateStop] ∧
      ∀ e ∈ (report d cfg { f with speechToText := ([], none) }).trace,
        e.isViewText = false ∧ e.isDialogue = false ∧ e.isRecognitionErrorLog = false ∧
          e.isPcm2Wav = false := by
  have hs := serialize_length f.rawData
  have hge : ¬ ((serialize f.rawData).length : Int) < cfg.RecordThreshold := by
    rw [hs]; push_cast; omega
  have h0 : report d cfg { f with speechToText := ([], none) } =
      ⟨cfg,
        (if !cfg.SilenceMode then [.reportCalled, .viewTypingAnimate] else [.reportCalled]) ++
          [.decRawData, .log (.savingRaw cfg.InputRaw (serialize f.rawData).length),
           .writeFile cfg.InputRaw (serialize f.rawData)] ++
          (match f.writeFileErr with
           | some e => [.log (.writeFileFailed e.msg)]
           | none => []) ++
          [.speechToText cfg.InputRaw sampleRate, .viewTypingAnimateStop],
        true⟩ := by
    simp [report, hw, hge]
  have h1 : report d cfg { f with speechToText := (resultOnError, some err) } =
      ⟨cfg,
        (if !cfg.SilenceMode then [.reportCalled, .viewTypingAnimate] else [.reportCalled]) ++
          [.decRawData, .log (.savingRaw cfg.InputRaw (serialize f.rawData).length),
           .writeFile cfg.InputRaw (serialize f.rawData)] ++
          (match f.writeFileErr with
           | some e => [.log (.writeFileFailed e.msg)]
           | none => []) ++
          [.speechToText cfg.InputRaw sampleRate, .viewTypingAnimateStop],
        true⟩ := by
    simp [report, hw, hge, hq]
  refine ⟨by rw [h0, h1], h0, ?_, ?_⟩
  · rw [h0]
    cases hsm : cfg.SilenceMode <;> cases hwf : f.writeFileErr <;>
      simp [afterRecognition, List.dropWhile, Event.isSpeechToText]
  · rw [h0]
    cases hsm : cfg.SilenceMode <;> cases hwf : f.writeFileErr <;>
      simp [Event.isViewText, Event.isDialogue, Event.isRecognitionErrorLog, Event.isPcm2Wav]

/-- Witness of C8: three samples against a threshold of four bytes, the error `quality`. -/
theorem zero_candidates_same_as_quality_error_witness :
    report exDeps exSilentCfg { exRecognisedFrame [] with speechToText := ([], none) } =
        report exDeps exSilentCfg
          { exRecognisedFrame [] with speechToText := ([], some ⟨str "quality"⟩) } ∧
      report exDeps exSilentCfg { exRecognisedFrame [] with speechToText := ([], none) } =
        ⟨exSilentCfg,
          (if !exSilentCfg.SilenceMode then [.reportCalled, .viewTypingAnimate]
            else [.reportCalled]) ++
            [.decRawData,
             .log (.savingRaw exSilentCfg.InputRaw
               (serialize (exRecognisedFrame []).rawData).length),
             .writeFile exSilentCfg.InputRaw (serialize (exRecognisedFrame []).rawData)] ++
            (match (exRecognisedFrame []).writeFileErr with
             | some e => [.log (.writeFileFailed e.msg)]
             | none => []) ++
            [.speechToText exSilentCfg.InputRaw sampleRate, .viewTypingAnimateStop],
          true⟩ ∧
      afterRecognition (report exDeps exSilentCfg
          { exRecognisedFrame [] with speechToText := ([], none) }).trace =
        [.viewTypingAnimateStop] ∧
      ∀ e ∈ (report exDeps exSilentCfg
          { exRecognisedFrame [] with speechToText := ([], none) }).trace,
        e.isViewText = false ∧ e.isDialogue = false ∧ e.isRecognitionErrorLog = false ∧
          e.isPcm2Wav = false :=
  zero_candidates_same_as_quality_error exDeps exSilentCfg (exRecognisedFrame [])
    ⟨str "quality"⟩ [] rfl (by decide) (by decide)

/-- C9, as the claim states it, fails: after a speech frame and the silence
frame that closes the utterance, the listener has `inSpeech = true` and
`uttStarted = false`, which is neither `Idle` nor `Capturing`. -/
theorem closed_listener_is_not_idle :
    (runFrames exDeps ⟨Listener.initial, exWakeCfg⟩ [exFrame true, exFrame false]).final.l
        = ⟨true, false⟩ ∧
      (runFrames exDeps ⟨Listener.initial, exWakeCfg⟩ [exFrame true, exFrame false]).stop
        = none ∧
      (runFrames exDeps ⟨Listener.initial, exWakeCfg⟩
        [exFrame true, exFrame false]).final.l.isIdle = false ∧
      (runFrames exDeps ⟨Listener.initial, exWakeCfg⟩
        [exFrame true, exFrame false]).final.l.isCapturing = false := by
  decide

/-- C9 amended: every listener reached from the initial one is `Idle`,
`Capturing`, or has `inSpeech = true` and `uttStarted = false` (the field
`inSpeech` is set on speech and never cleared); the silence frame that closes
an open utterance leaves `inSpeech = true` and `uttStarted = false`. -/
theorem reachable_listener_states (d : Deps) (cfg : Config) (fs : List Frame) :
    ((runFrames d ⟨Listener.initial, cfg⟩ fs).final.l.isIdle = true ∨
      (runFrames d ⟨Listener.initial, cfg⟩ fs).final.l.isCapturing = true ∨
      (runFrames d ⟨Listener.initial, cfg⟩ fs).final.l = ⟨true, false⟩) ∧
      ∀ f : Frame,
        f.processed (runFrames d ⟨Listener.initial, cfg⟩ fs).final.cfg.InterruptMode = true →
        f.isInSpeech = false →
        (runFrames d ⟨Listener.initial, cfg⟩ fs).final.l.uttStarted = true →
        (step d (runFrames d ⟨Listener.initial, cfg⟩ fs).final f).l = ⟨true, false⟩ := by
  have hinv := run_inv d ⟨Listener.initial, cfg⟩ fs (by simp [Listener.initial])
  refine ⟨?_, ?_⟩
  · revert hinv
    rcases (runFrames d ⟨Listener.initial, cfg⟩ fs).final.l with ⟨a, b⟩
    cases a <;> cases b <;> simp [Listener.isIdle, Listener.isCapturing]
  · intro f hp hs hu
    have hin := hinv hu
    simp only [Frame.processed, Bool.and_eq_true, Bool.or_eq_true, Bool.not_eq_true',
      decide_eq_true_eq] at hp
    obtain ⟨⟨hgate, hcnt⟩, hraw⟩ := hp
    have hg : (({ (runFrames d ⟨Listener.initial, cfg⟩ fs).final.cfg with
        IsPlayingVoice := f.isPlayingVoice } : Config).IsPlayingVoice &&
        !({ (runFrames d ⟨Listener.initial, cfg⟩ fs).final.cfg with
          IsPlayingVoice := f.isPlayingVoice } : Config).InterruptMode) = false := by
      rcases hgate with h | h <;> simp [h]
    obtain ⟨tail, out, _, hr⟩ := paCallback_close d _ _ f hg hcnt hraw hs hu
    have hstep : step d (runFrames d ⟨Listener.initial, cfg⟩ fs).final f = _ := hr
    rw [hstep]
    revert hin
    rcases (runFrames d ⟨Listener.initial, cfg⟩ fs).final.l with ⟨a, b⟩
    intro hin
    simp only at hin
    simp [hin]

/-- C10, the failing input: a candidate list whose first candidate is the
empty string.  `report` panics at `s[len(s)-1]` after the recognition call;
`paCallback` does not return, `StartUtt` is not called, and the speech frame
that follows is not processed. -/
theorem empty_first_candidate_panics :
    (report exDeps exSilentCfg (exRecognisedFrame [[]])).returned = false ∧
      (paCallback exDeps exSilentCfg ⟨true, true⟩ (exRecognisedFrame [[]])).out = .panicked ∧
      Event.decStartUtt ∉
        (paCallback exDeps exSilentCfg ⟨true, true⟩ (exRecognisedFrame [[]])).trace ∧
      ((runFrames exDeps ⟨Listener.initial, exSilentCfg⟩
          [exFrame true, exRecognisedFrame [[]], exFrame true]).traces.length = 2 ∧
        (runFrames exDeps ⟨Listener.initial, exSilentCfg⟩
          [exFrame true, exRecognisedFrame [[]], exFrame true]).stop = some .panicked) := by
  decide

end Homo
